import Mathlib

/-!
Verification of the record-transformation pipeline of the michigan-problems
repository (solution_set_10.py and solution-set_09.py).

Python dicts are modelled as insertion-ordered association lists from string
keys to JSON-like values; fallible Python code (KeyError, TypeError,
AttributeError, parse failures) is modelled with Option.  The HTTP layer
(requests.get(...).json()) is an abstract oracle mapping a url and optional
query parameters to the decoded response body.
-/

/-- A decoded JSON-like Python value: strings, numbers, booleans, None,
dicts, lists, plus datetime objects (carrying the string they were parsed
from) as produced by datetime.strptime. -/
inductive Value where
  | str : String → Value
  | num : Int → Value
  | bool : Bool → Value
  | null : Value
  | obj : List (String × Value) → Value
  | arr : List Value → Value
  | dt : String → Value

mutual
/-- Structural (Python ==) equality test on values. -/
def Value.beq : Value → Value → Bool
  | .str a, .str b => a == b
  | .num a, .num b => a == b
  | .bool a, .bool b => a == b
  | .null, .null => true
  | .dt a, .dt b => a == b
  | .obj a, .obj b => Value.beqFields a b
  | .arr a, .arr b => Value.beqList a b
  | _, _ => false
/-- Equality test on dict entry lists. -/
def Value.beqFields : List (String × Value) → List (String × Value) → Bool
  | [], [] => true
  | (k1, v1) :: t1, (k2, v2) :: t2 => k1 == k2 && Value.beq v1 v2 && Value.beqFields t1 t2
  | _, _ => false
/-- Equality test on value lists. -/
def Value.beqList : List Value → List Value → Bool
  | [], [] => true
  | v1 :: t1, v2 :: t2 => Value.beq v1 v2 && Value.beqList t1 t2
  | _, _ => false
end

mutual
theorem Value.beq_iff : ∀ a b : Value, Value.beq a b = true ↔ a = b
  | .str a, .str b => by simp [Value.beq]
  | .num a, .num b => by simp [Value.beq]
  | .bool a, .bool b => by simp [Value.beq]
  | .null, .null => by simp [Value.beq]
  | .dt a, .dt b => by simp [Value.beq]
  | .obj a, .obj b => by simp [Value.beq, Value.beqFields_iff a b]
  | .arr a, .arr b => by simp [Value.beq, Value.beqList_iff a b]
  | .str a, .num b => by simp [Value.beq]
  | .str a, .bool b => by simp [Value.beq]
  | .str a, .null => by simp [Value.beq]
  | .str a, .dt b => by simp [Value.beq]
  | .str a, .obj b => by simp [Value.beq]
  | .str a, .arr b => by simp [Value.beq]
  | .num a, .str b => by simp [Value.beq]
  | .num a, .bool b => by simp [Value.beq]
  | .num a, .null => by simp [Value.beq]
  | .num a, .dt b => by simp [Value.beq]
  | .num a, .obj b => by simp [Value.beq]
  | .num a, .arr b => by simp [Value.beq]
  | .bool a, .str b => by simp [Value.beq]
  | .bool a, .num b => by simp [Value.beq]
  | .bool a, .null => by simp [Value.beq]
  | .bool a, .dt b => by simp [Value.beq]
  | .bool a, .obj b => by simp [Value.beq]
  | .bool a, .arr b => by simp [Value.beq]
  | .null, .str b => by simp [Value.beq]
  | .null, .num b => by simp [Value.beq]
  | .null, .bool b => by simp [Value.beq]
  | .null, .dt b => by simp [Value.beq]
  | .null, .obj b => by simp [Value.beq]
  | .null, .arr b => by simp [Value.beq]
  | .dt a, .str b => by simp [Value.beq]
  | .dt a, .num b => by simp [Value.beq]
  | .dt a, .bool b => by simp [Value.beq]
  | .dt a, .null => by simp [Value.beq]
  | .dt a, .obj b => by simp [Value.beq]
  | .dt a, .arr b => by simp [Value.beq]
  | .obj a, .str b => by simp [Value.beq]
  | .obj a, .num b => by simp [Value.beq]
  | .obj a, .bool b => by simp [Value.beq]
  | .obj a, .null => by simp [Value.beq]
  | .obj a, .dt b => by simp [Value.beq]
  | .obj a, .arr b => by simp [Value.beq]
  | .arr a, .str b => by simp [Value.beq]
  | .arr a, .num b => by simp [Value.beq]
  | .arr a, .bool b => by simp [Value.beq]
  | .arr a, .null => by simp [Value.beq]
  | .arr a, .dt b => by simp [Value.beq]
  | .arr a, .obj b => by simp [Value.beq]
theorem Value.beqFields_iff : ∀ a b : List (String × Value), Value.beqFields a b = true ↔ a = b
  | [], [] => by simp [Value.beqFields]
  | [], (k2, v2) :: t2 => by simp [Value.beqFields]
  | (k1, v1) :: t1, [] => by simp [Value.beqFields]
  | (k1, v1) :: t1, (k2, v2) :: t2 => by
      simp [Value.beqFields, Value.beq_iff v1 v2, Value.beqFields_iff t1 t2, and_assoc]
theorem Value.beqList_iff : ∀ a b : List Value, Value.beqList a b = true ↔ a = b
  | [], [] => by simp [Value.beqList]
  | [], v2 :: t2 => by simp [Value.beqList]
  | v1 :: t1, [] => by simp [Value.beqList]
  | v1 :: t1, v2 :: t2 => by
      simp [Value.beqList, Value.beq_iff v1 v2, Value.beqList_iff t1 t2]
end

instance : DecidableEq Value := fun a b =>
  decidable_of_iff (Value.beq a b = true) (Value.beq_iff a b)

/-- A Python dict with string keys: an insertion-ordered association list. -/
abbrev Record := List (String × Value)

/-- Python d.get(k): the value at the first occurrence of key k, if present. -/
def dictGet : Record → String → Option Value
  | [], _ => none
  | (k0, v0) :: t, k => if k0 = k then some v0 else dictGet t k

/-- Python d.get(k, default). -/
def dictGetD (r : Record) (k : String) (d : Value) : Value :=
  (dictGet r k).getD d

/-- Python d[k] = v: replace the value in place if k is present, append the
new key at the end otherwise. -/
def setKey : Record → String → Value → Record
  | [], k, v => [(k, v)]
  | (k0, v0) :: t, k, v => if k0 = k then (k, v) :: t else (k0, v0) :: setKey t k v

/-- Python truthiness of a value. -/
def pyTruthy : Value → Bool
  | .str s => !s.isEmpty
  | .num n => n != 0
  | .bool b => b
  | .null => false
  | .obj f => !f.isEmpty
  | .arr l => !l.isEmpty
  | .dt _ => true

/-- Python for-loop iteration over a value: list elements, dict keys,
string characters; anything else raises TypeError. -/
def pyIter : Value → Option (List Value)
  | .arr xs => some xs
  | .obj f => some (f.map (fun kv => Value.str kv.1))
  | .str s => some (s.toList.map (fun c => Value.str (String.mk [c])))
  | _ => none

/-- Python substring test on character lists: does the needle occur
contiguously in the haystack? -/
def charsContain (needle : List Char) : List Char → Bool
  | [] => needle.isEmpty
  | c :: t => needle.isPrefixOf (c :: t) || charsContain needle t

/-- Python membership test needle in haystack on strings. -/
def strContains (needle haystack : String) : Bool :=
  charsContain needle.toList haystack.toList

/-- Applying a fallible function across a list, failing when any element
fails (a Python comprehension whose body may raise). -/
def optMap {α β : Type} (f : α → Option β) : List α → Option (List β)
  | [] => some []
  | a :: t => (f a).bind (fun b => (optMap f t).map (fun bt => b :: bt))

theorem dictGet_setKey_self (s : Record) (k : String) (v : Value) :
    dictGet (setKey s k v) k = some v := by
  induction s with
  | nil => simp [setKey, dictGet]
  | cons h t ih =>
      by_cases hk : h.1 = k
      · simp [setKey, hk, dictGet]
      · simp [setKey, hk, dictGet, ih]

theorem dictGet_setKey_ne (s : Record) (k k2 : String) (v : Value) (h : k2 ≠ k) :
    dictGet (setKey s k v) k2 = dictGet s k2 := by
  have hne : ¬ k = k2 := fun hx => h hx.symm
  induction s with
  | nil => simp only [setKey, dictGet]; rw [if_neg hne]
  | cons hd t ih =>
      obtain ⟨k0, v0⟩ := hd
      by_cases hk : k0 = k
      · subst hk
        simp only [setKey, if_pos rfl, dictGet]
        rw [if_neg hne, if_neg hne]
      · simp only [setKey, if_neg hk, dictGet]
        by_cases hk2 : k0 = k2
        · rw [if_pos hk2, if_pos hk2]
        · rw [if_neg hk2, if_neg hk2, ih]

theorem optMap_eq_none_of_mem {α β : Type} (f : α → Option β) {l : List α} {a : α}
    (ha : a ∈ l) (hf : f a = none) : optMap f l = none := by
  induction l with
  | nil => cases ha
  | cons h t ih =>
      rcases List.mem_cons.mp ha with h1 | h1
      · subst h1; simp [optMap, hf]
      · cases hfh : f h with
        | none => simp [optMap, hfh]
        | some b => simp [optMap, hfh, ih h1]

/-! ## solution_set_10.py -/

/-- Query-string parameters, e.g. {"search": name}. -/
abbrev Params := List (String × String)

/-- The external HTTP layer: the decoded JSON body that
requests.get(url, ...).json() produces for a url, with or without
query-string parameters.  An abstract oracle supplied to each function. -/
abbrev Fetch := String → Option Params → Value

/-- get_swapi_resource (lines 217-235): if params is truthy (a non-empty
dict) the request carries the query string, otherwise the url is fetched
directly; the decoded body is returned unchanged in both cases. -/
def get_swapi_resource (fetch : Fetch) (url : String) (params : Params) : Value :=
  if !params.isEmpty then fetch url (some params) else fetch url none

/-- get_homeworld (lines 180-214): if the identifier contains "https://" it
is fetched directly as a url, otherwise it is used as a search parameter
against the supplied url; the result is thinned to five fixed keys with
dict.get defaulting.  A non-string identifier is a TypeError and a
non-dict fetch result is an AttributeError, both modelled as none. -/
def get_homeworld (fetch : Fetch) (identifier : Value) (url : String) : Option Record :=
  match identifier with
  | .str s =>
      let swapi_result :=
        if strContains "https://" s then get_swapi_resource fetch s []
        else get_swapi_resource fetch url [("search", s)]
      match swapi_result with
      | .obj fields =>
          some [("name", dictGetD fields "name" (.str "")),
                ("diameter", dictGetD fields "diameter" (.str "")),
                ("climate", dictGetD fields "climate" (.str "")),
                ("terrain", dictGetD fields "terrain" (.str "")),
                ("population", dictGetD fields "population" (.str ""))]
      | _ => none
  | _ => none

/-- create_person (lines 109-150): the seven-key dict literal, with
homeworld resolved through get_homeworld on person.get("homeworld")
(None when absent, which makes get_homeworld raise). -/
def create_person (fetch : Fetch) (person : Record) (url : String) : Option Record :=
  (get_homeworld fetch (dictGetD person "homeworld" .null) url).map (fun hw =>
    [("name", dictGetD person "name" (.str "")),
     ("height", dictGetD person "height" (.str "")),
     ("mass", dictGetD person "mass" (.str "")),
     ("birth_year", dictGetD person "birth_year" (.str "")),
     ("eye_color", dictGetD person "eye_color" (.str "")),
     ("homeworld", .obj hw),
     ("dialogue", .arr [])])

/-- create_starship (lines 153-177): the five-key dict literal. -/
def create_starship (starship : Record) : Record :=
  [("name", dictGetD starship "name" (.str "")),
   ("model", dictGetD starship "model" (.str "")),
   ("passengers", .arr []),
   ("max_atmosphering_speed", dictGetD starship "max_atmosphering_speed" (.str "")),
   ("length", dictGetD starship "length" (.str ""))]

/-- The append-or-create pattern of both branches of the board_starship
loop body (lines 66-76): append the person to the bucket list if the key
is present, create the bucket with a one-element list otherwise.  A
pre-existing non-list value under the bucket key is an AttributeError on
.append, modelled as none. -/
def bucketInsert (starship : Record) (bucket : String) (person : Value) : Option Record :=
  match dictGet starship bucket with
  | some (.arr xs) => some (setKey starship bucket (.arr (xs ++ [person])))
  | some _ => none
  | none => some (setKey starship bucket (.arr [person]))

/-- One iteration of the board_starship loop (lines 64-76) for a
(person, is_intruder) pair: the intruder bucket when the flag is true,
the passengers bucket otherwise. -/
def boardStep (starship : Record) (p : Value × Bool) : Option Record :=
  if p.2 then bucketInsert starship "intruder" p.1
  else bucketInsert starship "passengers" p.1

/-- board_starship (lines 30-78): fold the boarding step over the people
list, threading the mutated starship dict. -/
def board_starship : Record → List (Value × Bool) → Option Record
  | s, [] => some s
  | s, p :: t => (boardStep s p).bind (fun s2 => board_starship s2 t)

/-! ## solution-set_09.py -/

/-- One key-value pair of the convert_published_date_value inner loop
(lines 25-29): a pub_date value is re-parsed by datetime.strptime (an
external library call, abstracted as the parse argument; failure or a
non-string value raises), every other pair is untouched. -/
def convertPair (parse : String → Option Value) (kv : String × Value) :
    Option (String × Value) :=
  if kv.1 = "pub_date" then
    match kv.2 with
    | .str s => (parse s).map (fun d => ("pub_date", d))
    | _ => none
  else some kv

/-- convert_published_date_value (lines 6-33): rewrite the pub_date value
of every article in place, leaving all other pairs as they are. -/
def convert_published_date_value (parse : String → Option Value) (data : List Record) :
    Option (List Record) :=
  optMap (fun article => optMap (convertPair parse) article) data

/-- The body of the create_headline_url_list comprehension (line 50):
(article["headline"]["main"], article["web_url"]), with direct indexing,
so a missing key is a KeyError and indexing a non-dict a TypeError. -/
def headlineUrl (article : Record) : Option (Value × Value) :=
  match dictGet article "headline" with
  | some (.obj hf) =>
      match dictGet hf "main" with
      | some m =>
          match dictGet article "web_url" with
          | some u => some (m, u)
          | none => none
      | none => none
  | _ => none

/-- create_headline_url_list (lines 36-50). -/
def create_headline_url_list (data : List Record) : Option (List (Value × Value)) :=
  optMap headlineUrl data

/-- filter_articles (lines 53-88): per article, keep exactly the pairs
whose key is not excluded. -/
def filter_articles (data : List Record) (keys_to_exclude : List String) : List Record :=
  data.map (fun article => article.filter (fun kv => !(keys_to_exclude.contains kv.1)))

/-- format_author_name (lines 91-107): the f-string over
person["lastname"].title() and person["firstname"].title(); str.title is
an external string method, abstracted as the title argument.  Missing
keys, a non-dict person or non-string name parts raise. -/
def format_author_name (title : String → String) (person : Value) : Option Value :=
  match person with
  | .obj f =>
      match dictGet f "lastname" with
      | some (.str ln) =>
          match dictGet f "firstname" with
          | some (.str fn) => some (.str (title ln ++ ", " ++ title fn))
          | some _ => none
          | none => none
      | some _ => none
      | none => none
  | _ => none

/-- get_author_names (lines 110-123): format every entry of
article["byline"]["person"]. -/
def get_author_names (title : String → String) (article : Record) : Option (List Value) :=
  match dictGet article "byline" with
  | some (.obj bf) =>
      match dictGet bf "person" with
      | some v => (pyIter v).bind (fun ps => optMap (format_author_name title) ps)
      | none => none
  | _ => none

/-- One keyword of the get_organization_names comprehension (lines
140-144): first the filter condition keyword["name"] == "organizations",
then, when it holds, the output expression keyword["value"].  The result
is none on a raised lookup, some none when filtered out, some (some v)
when kept. -/
def orgKeywordStep (kw : Value) : Option (Option Value) :=
  match kw with
  | .obj f =>
      match dictGet f "name" with
      | some n =>
          if n = .str "organizations" then
            match dictGet f "value" with
            | some v => some (some v)
            | none => none
          else some none
      | none => none
  | _ => none

/-- article.get("keywords", []) followed by iteration (shared by the three
keyword-walking functions). -/
def keywordsOf (article : Record) : Option (List Value) :=
  match dictGet article "keywords" with
  | none => some []
  | some v => pyIter v

/-- get_organization_names (lines 126-144). -/
def get_organization_names (article : Record) : Option (List Value) :=
  (keywordsOf article).bind (fun kws =>
    (optMap orgKeywordStep kws).map (fun picked => picked.filterMap id))

/-- One keyword of the get_news_by_location predicate (line 167):
keyword["name"] == "glocations" and location in keyword["value"]; the
membership test is substring on a string value, element equality on a
list, key membership on a dict, a TypeError otherwise. -/
def glocationStep (location : String) (kw : Value) : Option Bool :=
  match kw with
  | .obj f =>
      match dictGet f "name" with
      | some n =>
          if n = .str "glocations" then
            match dictGet f "value" with
            | some (.str s) => some (strContains location s)
            | some (.arr xs) => some (xs.contains (.str location))
            | some (.obj g) => some ((g.map (fun kv => kv.1)).contains location)
            | some _ => none
            | none => none
          else some false
      | none => none
  | _ => none

/-- Python any(...) over the keyword generator: short-circuits at the
first true, propagating a raise met before that. -/
def anyGlocation (location : String) : List Value → Option Bool
  | [] => some false
  | kw :: t => (glocationStep location kw).bind
      (fun b => if b then some true else anyGlocation location t)

/-- get_news_by_location (lines 147-170). -/
def get_news_by_location : List Record → String → Option (List Record)
  | [], _ => some []
  | article :: t, location =>
      (keywordsOf article).bind (fun kws =>
        (anyGlocation location kws).bind (fun keep =>
          (get_news_by_location t location).map
            (fun rest => if keep then article :: rest else rest)))

/-- remove_empty_keywords_articles (lines 189-202): keep the articles
whose keywords value is truthy; article["keywords"] is a direct index, so
a missing key is a KeyError. -/
def remove_empty_keywords_articles : List Record → Option (List Record)
  | [] => some []
  | article :: t =>
      match dictGet article "keywords" with
      | some v => (remove_empty_keywords_articles t).map
          (fun rest => if pyTruthy v then article :: rest else rest)
      | none => none

/-- The Problem 04 accumulation loop of main (lines 335-341), threading
the tech_organizations list: each extracted name is appended unless
already present. -/
def uniqueOrganizationsFrom : List Record → List Value → Option (List Value)
  | [], acc => some acc
  | article :: t, acc =>
      (get_organization_names article).bind (fun names =>
        uniqueOrganizationsFrom t
          (names.foldl (fun acc name => if name ∉ acc then acc ++ [name] else acc) acc))

/-- The Problem 04 loop started on the empty accumulator. -/
def uniqueOrganizations (data : List Record) : Option (List Value) :=
  uniqueOrganizationsFrom data []

/-- The Problem 07 accumulation loop of main (lines 380-385): each author
is appended when it is not None and not already present. -/
def uniqueAuthorsFrom (title : String → String) :
    List Record → List Value → Option (List Value)
  | [], acc => some acc
  | article :: t, acc =>
      (get_author_names title article).bind (fun authors =>
        uniqueAuthorsFrom title t
          (authors.foldl
            (fun acc a => if a ≠ Value.null ∧ a ∉ acc then acc ++ [a] else acc) acc))

/-- The Problem 07 loop started on the empty accumulator. -/
def uniqueAuthors (title : String → String) (data : List Record) : Option (List Value) :=
  uniqueAuthorsFrom title data []

/-! ## Shared concrete data and spec-side notions -/

/-- The docstring notion for get_homeworld ("commences with"): the needle
is an initial segment of the haystack. -/
def strBeginsWith (needle haystack : String) : Bool :=
  needle.toList.isPrefixOf haystack.toList

/-- The Tatooine planet record of the Problem 04 assertion (lines 388-394),
already in the thinned five-key shape. -/
def tatooineRecord : Record :=
  [("name", .str "Tatooine"), ("diameter", .str "10465"), ("climate", .str "arid"),
   ("terrain", .str "desert"), ("population", .str "200000")]

/-- A search envelope wrapping the Tatooine record, as the SWAPI search
endpoint returns it. -/
def tatooineEnvelope : Value :=
  Value.obj [("count", Value.num 1), ("results", Value.arr [Value.obj tatooineRecord])]

/-- An oracle whose responses reveal which branch fetched them: search
requests and direct url requests get distinct bodies. -/
def branchFetch : Fetch := fun url params =>
  match params with
  | some _ => Value.obj [("name", Value.str "name-search")]
  | none => Value.obj [("name", Value.str ("direct:" ++ url))]

/-- The caller pattern around get_swapi_resource in main (line 335 and
the five later search call sites): resource["results"][0]. -/
def resultsFirst (v : Value) : Option Value :=
  match v with
  | .obj fields =>
      match dictGet fields "results" with
      | some (.arr (r :: _)) => some r
      | some _ => none
      | none => none
  | _ => none

/-! ## Claims -/

/-- C1: with the search response for "Tatooine" being the five-key Tatooine
planet record, get_homeworld returns exactly that thinned record, no extra
keys, no defaulted values. -/
theorem C1_get_homeworld_thinned (fetch : Fetch) (endpoint : String)
    (h : fetch endpoint (some [("search", "Tatooine")]) = Value.obj tatooineRecord) :
    get_homeworld fetch (.str "Tatooine") endpoint = some tatooineRecord := by
  have hc : strContains "https://" "Tatooine" = false := by decide
  simp only [get_homeworld, get_swapi_resource, hc, Bool.false_eq_true, if_false,
    List.isEmpty_cons, Bool.not_false, if_true, h]
  decide

theorem C1_get_homeworld_thinned_witness :
    get_homeworld (fun _ _ => Value.obj tatooineRecord) (.str "Tatooine")
      "https://swapi.py4e.com/api/planets/" = some tatooineRecord :=
  C1_get_homeworld_thinned (fun _ _ => Value.obj tatooineRecord)
    "https://swapi.py4e.com/api/planets/" rfl

/-- C3: the code keys the direct-url branch on containment of "https://",
not on the identifier beginning with it: an identifier that merely
contains the scheme in the middle is still fetched directly as a url
(second conjunct), while a plain name is name-searched (third conjunct). -/
theorem C3_code_divergence :
    strBeginsWith "https://" "Naboo https://swapi.py4e.com/api/planets/8/" = false ∧
    get_homeworld branchFetch (.str "Naboo https://swapi.py4e.com/api/planets/8/") "EP" =
      some [("name", .str "direct:Naboo https://swapi.py4e.com/api/planets/8/"),
            ("diameter", .str ""), ("climate", .str ""),
            ("terrain", .str ""), ("population", .str "")] ∧
    get_homeworld branchFetch (.str "Naboo") "EP" =
      some [("name", .str "name-search"), ("diameter", .str ""), ("climate", .str ""),
            ("terrain", .str ""), ("population", .str "")] := by
  decide

/-- C5 counterexample: with a provided query, get_swapi_resource returns
the search envelope itself, which is not the first element of its results
list. -/
theorem C5_counterexample :
    get_swapi_resource (fun _ _ => tatooineEnvelope)
      "https://swapi.py4e.com/api/planets/" [("search", "Tatooine")] = tatooineEnvelope ∧
    tatooineEnvelope ≠ Value.obj tatooineRecord := by
  decide

/-- C5 amended: with a non-empty query the Fetcher returns the decoded
response body (the envelope) unchanged; the unwrapping to the first result
is done by the callers, which index ["results"][0] on what it returns. -/
theorem C5_envelope_returned (fetch : Fetch) (url : String) (params : Params)
    (hp : params ≠ []) :
    get_swapi_resource fetch url params = fetch url (some params) ∧
    ∀ fields r rest, fetch url (some params) = Value.obj fields →
      dictGet fields "results" = some (Value.arr (r :: rest)) →
      resultsFirst (get_swapi_resource fetch url params) = some r := by
  have hne : params.isEmpty = false := by
    cases params with
    | nil => exact absurd rfl hp
    | cons p t => rfl
  refine ⟨by simp [get_swapi_resource, hne], ?_⟩
  intro fields r rest hf hr
  simp [get_swapi_resource, hne, resultsFirst, hf, hr]

theorem C5_envelope_returned_witness :
    get_swapi_resource (fun _ _ => tatooineEnvelope) "u" [("search", "Tatooine")] =
      tatooineEnvelope ∧
    resultsFirst (get_swapi_resource (fun _ _ => tatooineEnvelope) "u"
      [("search", "Tatooine")]) = some (Value.obj tatooineRecord) := by
  have h := C5_envelope_returned (fun _ _ => tatooineEnvelope) "u" [("search", "Tatooine")]
    (by decide)
  exact ⟨h.1, h.2 [("count", Value.num 1), ("results", Value.arr [Value.obj tatooineRecord])]
    (Value.obj tatooineRecord) [] rfl rfl⟩

/-- C9: filtering with an empty excluded-key list is the identity on the
collection: every record keeps all its pairs, and the collection keeps its
length and order. -/
theorem C9_filter_identity (data : List Record) : filter_articles data [] = data := by
  have hr : ∀ r : Record, r.filter (fun kv => !(([] : List String).contains kv.1)) = r := by
    intro r
    induction r with
    | nil => rfl
    | cons kv t ih => simp [List.filter, ih]
  induction data with
  | nil => rfl
  | cons a t ih => simp [filter_articles, hr]

/-- C2 counterexample: a declared field present in the source is not
always copied verbatim (create_starship overwrites passengers with []),
and the projector can error (create_person raises on a record with no
homeworld, instead of defaulting). -/
theorem C2_counterexample :
    dictGet (create_starship [("passengers", Value.str "843342")]) "passengers" =
      some (Value.arr []) ∧
    dictGet [("passengers", Value.str "843342")] "passengers" =
      some (Value.str "843342") ∧
    create_person (fun _ _ => Value.obj tatooineRecord) [] "EP" = none := by
  decide

/-- C2 amended: both projectors emit exactly the declared key set in
declared order; the scalar fields are copied verbatim when present and
default to "" when absent; but passengers (starship) and dialogue (person)
are always overwritten with [], and the person homeworld field holds the
resolved thinned homeworld record (create_person erroring, not
defaulting, exactly when that resolution fails). -/
theorem C2_projector (fetch : Fetch) (url : String) (R S out : Record)
    (h : create_person fetch R url = some out) :
    (create_starship S).map (fun kv => kv.1) =
        ["name", "model", "passengers", "max_atmosphering_speed", "length"] ∧
    dictGet (create_starship S) "name" = some (dictGetD S "name" (.str "")) ∧
    dictGet (create_starship S) "model" = some (dictGetD S "model" (.str "")) ∧
    dictGet (create_starship S) "max_atmosphering_speed" =
      some (dictGetD S "max_atmosphering_speed" (.str "")) ∧
    dictGet (create_starship S) "length" = some (dictGetD S "length" (.str "")) ∧
    dictGet (create_starship S) "passengers" = some (Value.arr []) ∧
    out.map (fun kv => kv.1) =
        ["name", "height", "mass", "birth_year", "eye_color", "homeworld", "dialogue"] ∧
    dictGet out "name" = some (dictGetD R "name" (.str "")) ∧
    dictGet out "height" = some (dictGetD R "height" (.str "")) ∧
    dictGet out "mass" = some (dictGetD R "mass" (.str "")) ∧
    dictGet out "birth_year" = some (dictGetD R "birth_year" (.str "")) ∧
    dictGet out "eye_color" = some (dictGetD R "eye_color" (.str "")) ∧
    dictGet out "dialogue" = some (Value.arr []) ∧
    dictGet out "homeworld" =
      (get_homeworld fetch (dictGetD R "homeworld" Value.null) url).map Value.obj := by
  rcases Option.map_eq_some'.mp h with ⟨hw, hhw, hout⟩
  subst hout
  rw [hhw]
  exact ⟨rfl, rfl, rfl, rfl, rfl, rfl, rfl, rfl, rfl, rfl, rfl, rfl, rfl, rfl⟩

/-- A raw person record for the C2 witness. -/
def c2person : Record :=
  [("name", Value.str "C-3PO"),
   ("homeworld", Value.str "https://swapi.py4e.com/api/planets/1/")]

/-- A raw starship record for the C2 witness. -/
def c2starship : Record :=
  [("passengers", Value.str "843342"), ("name", Value.str "Death Star")]

/-- The projected person of the C2 witness. -/
def c2out : Record :=
  [("name", .str "C-3PO"), ("height", .str ""), ("mass", .str ""),
   ("birth_year", .str ""), ("eye_color", .str ""),
   ("homeworld", .obj tatooineRecord), ("dialogue", .arr [])]

theorem C2_projector_witness :
    (create_starship c2starship).map (fun kv => kv.1) =
        ["name", "model", "passengers", "max_atmosphering_speed", "length"] ∧
    dictGet (create_starship c2starship) "name" = some (dictGetD c2starship "name" (.str "")) ∧
    dictGet (create_starship c2starship) "model" =
      some (dictGetD c2starship "model" (.str "")) ∧
    dictGet (create_starship c2starship) "max_atmosphering_speed" =
      some (dictGetD c2starship "max_atmosphering_speed" (.str "")) ∧
    dictGet (create_starship c2starship) "length" =
      some (dictGetD c2starship "length" (.str "")) ∧
    dictGet (create_starship c2starship) "passengers" = some (Value.arr []) ∧
    c2out.map (fun kv => kv.1) =
        ["name", "height", "mass", "birth_year", "eye_color", "homeworld", "dialogue"] ∧
    dictGet c2out "name" = some (dictGetD c2person "name" (.str "")) ∧
    dictGet c2out "height" = some (dictGetD c2person "height" (.str "")) ∧
    dictGet c2out "mass" = some (dictGetD c2person "mass" (.str "")) ∧
    dictGet c2out "birth_year" = some (dictGetD c2person "birth_year" (.str "")) ∧
    dictGet c2out "eye_color" = some (dictGetD c2person "eye_color" (.str "")) ∧
    dictGet c2out "dialogue" = some (Value.arr []) ∧
    dictGet c2out "homeworld" =
      (get_homeworld (fun _ _ => Value.obj tatooineRecord)
        (dictGetD c2person "homeworld" Value.null) "EP").map Value.obj :=
  C2_projector (fun _ _ => Value.obj tatooineRecord) "EP" c2person c2starship c2out
    (by decide)

/-- Records all lacking a keywords key pass through get_news_by_location
without error and none of them is kept. -/
theorem news_none_of_no_keywords (location : String) : ∀ data : List Record,
    (∀ r ∈ data, dictGet r "keywords" = none) →
    get_news_by_location data location = some []
  | [], _ => rfl
  | r :: t, hall => by
      have hr := hall r (List.mem_cons_self r t)
      have ht := fun x hx => hall x (List.mem_cons_of_mem r hx)
      simp [get_news_by_location, keywordsOf, hr, anyGlocation,
        news_none_of_no_keywords location t ht]

/-- remove_empty_keywords_articles raises as soon as any record lacks the
keywords key. -/
theorem remove_empty_none_of_mem : ∀ (data : List Record) (a : Record), a ∈ data →
    dictGet a "keywords" = none → remove_empty_keywords_articles data = none
  | [], a, ha, _ => absurd ha (List.not_mem_nil a)
  | r :: t, a, ha, hk => by
      rcases List.mem_cons.mp ha with h1 | h1
      · subst h1; simp [remove_empty_keywords_articles, hk]
      · cases hr : dictGet r "keywords" with
        | none => simp [remove_empty_keywords_articles, hr]
        | some v => simp [remove_empty_keywords_articles, hr,
            remove_empty_none_of_mem t a h1 hk]

/-- C4 counterexample: a record lacking the headline path makes
create_headline_url_list raise (KeyError), and a record lacking the
keywords key makes remove_empty_keywords_articles raise, instead of the
claimed empty contribution. -/
theorem C4_counterexample :
    create_headline_url_list [[("web_url", Value.str "https://nyt.example/a")]] = none ∧
    remove_empty_keywords_articles [[("headline", Value.obj [("main", Value.str "h")])]] =
      none := by
  decide

/-- C4 amended: only the .get-based reader is tolerant: get_news_by_location
treats a record lacking keywords as a false predicate (excluded, no
error), while create_headline_url_list errors on a record lacking the
headline path and remove_empty_keywords_articles errors on a record
lacking the keywords key. -/
theorem C4_missing_fields (data : List Record) (location : String) (a : Record)
    (ha : a ∈ data)
    (hall : ∀ r ∈ data, dictGet r "keywords" = none)
    (hh : dictGet a "headline" = none) :
    get_news_by_location data location = some [] ∧
    create_headline_url_list data = none ∧
    remove_empty_keywords_articles data = none := by
  refine ⟨news_none_of_no_keywords location data hall, ?_, ?_⟩
  · exact optMap_eq_none_of_mem headlineUrl ha (by simp [headlineUrl, hh])
  · exact remove_empty_none_of_mem data a ha (hall a ha)

theorem C4_missing_fields_witness :
    get_news_by_location [[("web_url", Value.str "u")]] "Calif" = some [] ∧
    create_headline_url_list [[("web_url", Value.str "u")]] = none ∧
    remove_empty_keywords_articles [[("web_url", Value.str "u")]] = none :=
  C4_missing_fields [[("web_url", Value.str "u")]] "Calif" [("web_url", Value.str "u")]
    (by decide) (by decide) (by decide)

/-- A successful convertPair keeps the key, and is the identity on pairs
whose key is not pub_date. -/
theorem convertPair_key (parse : String → Option Value) (kv b : String × Value)
    (h : convertPair parse kv = some b) :
    b.1 = kv.1 ∧ (kv.1 ≠ "pub_date" → b = kv) := by
  unfold convertPair at h
  by_cases hk : kv.1 = "pub_date"
  · rw [if_pos hk] at h
    cases hv : kv.2 with
    | str s =>
        rw [hv] at h
        rcases Option.map_eq_some'.mp h with ⟨d, hd, hbd⟩
        exact ⟨by rw [← hbd, hk], fun hne => absurd hk hne⟩
    | num n => rw [hv] at h; cases h
    | bool bb => rw [hv] at h; cases h
    | null => rw [hv] at h; cases h
    | obj o => rw [hv] at h; cases h
    | arr l => rw [hv] at h; cases h
    | dt d2 => rw [hv] at h; cases h
  · rw [if_neg hk] at h
    cases h
    exact ⟨rfl, fun _ => rfl⟩

/-- The per-article frame of the pub_date conversion: key order kept,
non-pub_date lookups unchanged, articles without pub_date untouched. -/
theorem convArticle_frame (parse : String → Option Value) : ∀ a a2 : Record,
    optMap (convertPair parse) a = some a2 →
    a2.map (fun kv => kv.1) = a.map (fun kv => kv.1) ∧
    (∀ k, k ≠ "pub_date" → dictGet a2 k = dictGet a k) ∧
    (dictGet a "pub_date" = none → a2 = a)
  | [], a2, h => by
      simp [optMap] at h
      subst h
      simp [dictGet]
  | kv :: t, a2, h => by
      rcases hb : convertPair parse kv with _ | b
      · rw [optMap, hb] at h; simp at h
      rcases ht : optMap (convertPair parse) t with _ | t2
      · rw [optMap, hb, ht] at h; simp at h
      rw [optMap, hb, ht] at h
      simp at h
      subst h
      obtain ⟨hkeys, hget, hnone⟩ := convArticle_frame parse t t2 ht
      obtain ⟨hb1, hbkv⟩ := convertPair_key parse kv b hb
      refine ⟨by simp [hkeys, hb1], ?_, ?_⟩
      · intro k hkk
        by_cases hk0 : kv.1 = k
        · have hne : kv.1 ≠ "pub_date" := by rw [hk0]; exact hkk
          rw [hbkv hne]
          simp [dictGet, hk0]
        · have hb1k : ¬ b.1 = k := by rw [hb1]; exact hk0
          cases b with
          | mk bk bv =>
            cases kv with
            | mk k0 v0 =>
              simp only [dictGet]
              rw [if_neg hb1k, if_neg hk0]
              exact hget k hkk
      · intro hpd
        cases kv with
        | mk k0 v0 =>
          simp only [dictGet] at hpd
          by_cases hk0 : k0 = "pub_date"
          · rw [if_pos hk0] at hpd; cases hpd
          · rw [if_neg hk0] at hpd
            rw [hbkv hk0, hnone hpd]

/-- The collection-level frame of the pub_date conversion. -/
theorem convert_frame_all (parse : String → Option Value) : ∀ data out : List Record,
    convert_published_date_value parse data = some out →
    out.length = data.length ∧
    ∀ i (hi : i < data.length) (hi2 : i < out.length),
      ((out.get ⟨i, hi2⟩).map (fun kv => kv.1) = (data.get ⟨i, hi⟩).map (fun kv => kv.1)) ∧
      (∀ k, k ≠ "pub_date" → dictGet (out.get ⟨i, hi2⟩) k = dictGet (data.get ⟨i, hi⟩) k) ∧
      (dictGet (data.get ⟨i, hi⟩) "pub_date" = none → out.get ⟨i, hi2⟩ = data.get ⟨i, hi⟩)
  | [], out, h => by
      simp [convert_published_date_value, optMap] at h
      subst h
      exact ⟨rfl, fun i hi hi2 => absurd hi (Nat.not_lt_zero i)⟩
  | a :: t, out, h => by
      have h2 : (optMap (convertPair parse) a).bind
          (fun a2 => (convert_published_date_value parse t).map (fun t2 => a2 :: t2)) =
          some out := h
      rcases ha : optMap (convertPair parse) a with _ | a2
      · rw [ha] at h2; cases h2
      rcases ht : convert_published_date_value parse t with _ | t2
      · rw [ha, ht] at h2; cases h2
      rw [ha, ht] at h2
      simp at h2
      subst h2
      obtain ⟨hlen, hrest⟩ := convert_frame_all parse t t2 ht
      refine ⟨by simp [hlen], ?_⟩
      intro i hi hi2
      cases i with
      | zero => exact convArticle_frame parse a a2 ha
      | succ n => exact hrest n (Nat.lt_of_succ_lt_succ hi) (Nat.lt_of_succ_lt_succ hi2)

/-- C10: convert_published_date_value keeps the collection's length and
order and, per record, the key order; every pair whose key is not
pub_date is unchanged, and a record with no pub_date key is returned
entirely unchanged. -/
theorem C10_convert_frame (parse : String → Option Value) (data out : List Record)
    (i : Nat) (k : String) (h : convert_published_date_value parse data = some out)
    (hi : i < data.length) (hi2 : i < out.length) (hk : k ≠ "pub_date") :
    out.length = data.length ∧
    (out.get ⟨i, hi2⟩).map (fun kv => kv.1) = (data.get ⟨i, hi⟩).map (fun kv => kv.1) ∧
    dictGet (out.get ⟨i, hi2⟩) k = dictGet (data.get ⟨i, hi⟩) k ∧
    (dictGet (data.get ⟨i, hi⟩) "pub_date" = none →
      out.get ⟨i, hi2⟩ = data.get ⟨i, hi⟩) := by
  obtain ⟨hlen, hrest⟩ := convert_frame_all parse data out h
  obtain ⟨h1, h2, h3⟩ := hrest i hi hi2
  exact ⟨hlen, h1, h2 k hk, h3⟩

/-- A one-article input for the C10 witness. -/
def c10data : List Record :=
  [[("pub_date", Value.str "2024-01-02T03:04:05+0000"), ("web_url", Value.str "u")]]

/-- Its converted image under the parse function of the C10 witness. -/
def c10out : List Record :=
  [[("pub_date", Value.dt "2024-01-02T03:04:05+0000"), ("web_url", Value.str "u")]]

theorem C10_convert_frame_witness :
    c10out.length = c10data.length ∧
    (c10out.get ⟨0, by decide⟩).map (fun kv => kv.1) =
      (c10data.get ⟨0, by decide⟩).map (fun kv => kv.1) ∧
    dictGet (c10out.get ⟨0, by decide⟩) "web_url" =
      dictGet (c10data.get ⟨0, by decide⟩) "web_url" ∧
    (dictGet (c10data.get ⟨0, by decide⟩) "pub_date" = none →
      c10out.get ⟨0, by decide⟩ = c10data.get ⟨0, by decide⟩) :=
  C10_convert_frame (fun s => some (Value.dt s)) c10data c10out 0 "web_url"
    (by decide) (by decide) (by decide) (by decide)

/-- The list held under a bucket key of a starship record (empty when the
key is absent or holds a non-list). -/
def bucketList (s : Record) (k : String) : List Value :=
  match dictGet s k with
  | some (.arr xs) => xs
  | _ => []

/-- A starship record is bucket-well-formed when its intruder and
passengers keys, if present, hold lists (the shape the data model gives
buckets; .append on anything else raises). -/
def BucketsWF (s : Record) : Prop :=
  (∀ v, dictGet s "intruder" = some v → ∃ xs, v = Value.arr xs) ∧
  (∀ v, dictGet s "passengers" = some v → ∃ xs, v = Value.arr xs)

/-- bucketInsert on a well-formed bucket key appends the person and leaves
every other key untouched. -/
theorem bucketInsert_spec (s : Record) (b : String) (x : Value)
    (hwb : ∀ v, dictGet s b = some v → ∃ xs, v = Value.arr xs) :
    ∃ s2, bucketInsert s b x = some s2 ∧
      dictGet s2 b = some (Value.arr (bucketList s b ++ [x])) ∧
      (∀ k, k ≠ b → dictGet s2 k = dictGet s k) := by
  refine ⟨setKey s b (.arr (bucketList s b ++ [x])), ?_, dictGet_setKey_self s b _,
    fun k hk => dictGet_setKey_ne s b k _ hk⟩
  unfold bucketInsert
  rcases hd : dictGet s b with _ | v
  · simp [bucketList, hd]
  · obtain ⟨xs, rfl⟩ := hwb v hd
    simp [bucketList, hd]

/-- A successful bucketInsert only rewrites the bucket key. -/
theorem bucketInsert_shape (s : Record) (b : String) (x : Value) (s1 : Record)
    (h : bucketInsert s b x = some s1) : ∃ w, s1 = setKey s b w := by
  unfold bucketInsert at h
  rcases hd : dictGet s b with _ | v
  · rw [hd] at h
    exact ⟨_, (Option.some.inj h).symm⟩
  · rw [hd] at h
    cases v with
    | arr xs => exact ⟨_, (Option.some.inj h).symm⟩
    | str a => cases h
    | num a => cases h
    | bool a => cases h
    | null => cases h
    | obj a => cases h
    | dt a => cases h

/-- One boarding step on a well-formed starship: the person lands at the
end of exactly one bucket, chosen by the flag, and nothing else moves. -/
theorem boardStep_spec (s : Record) (p : Value × Bool) (hw : BucketsWF s) :
    ∃ s2, boardStep s p = some s2 ∧ BucketsWF s2 ∧
      bucketList s2 "intruder" = bucketList s "intruder" ++ (if p.2 then [p.1] else []) ∧
      bucketList s2 "passengers" =
        bucketList s "passengers" ++ (if p.2 then [] else [p.1]) ∧
      (∀ k, k ≠ "passengers" → k ≠ "intruder" → dictGet s2 k = dictGet s k) := by
  cases hp : p.2
  · obtain ⟨s2, hins, hb, hfr⟩ := bucketInsert_spec s "passengers" p.1 hw.2
    refine ⟨s2, ?_, ?_, ?_, ?_, ?_⟩
    · unfold boardStep
      rw [hp]
      simp only [Bool.false_eq_true, if_false]
      exact hins
    · constructor
      · intro v hv
        rw [hfr "intruder" (by decide)] at hv
        exact hw.1 v hv
      · intro v hv
        rw [hb] at hv
        exact ⟨_, (Option.some.inj hv).symm⟩
    · rw [bucketList, hfr "intruder" (by decide)]
      simp [bucketList, hp]
    · rw [bucketList, hb]
      simp [hp]
    · intro k hk1 hk2
      exact hfr k hk1
  · obtain ⟨s2, hins, hb, hfr⟩ := bucketInsert_spec s "intruder" p.1 hw.1
    refine ⟨s2, ?_, ?_, ?_, ?_, ?_⟩
    · unfold boardStep
      rw [hp]
      simp only [if_true]
      exact hins
    · constructor
      · intro v hv
        rw [hb] at hv
        exact ⟨_, (Option.some.inj hv).symm⟩
      · intro v hv
        rw [hfr "passengers" (by decide)] at hv
        exact hw.2 v hv
    · rw [bucketList, hb]
      simp [hp]
    · rw [bucketList, hfr "passengers" (by decide)]
      simp [bucketList, hp]
    · intro k hk1 hk2
      exact hfr k hk2

/-- Boarding a well-formed starship succeeds, appends the flagged people
to the intruder bucket and the rest to the passengers bucket in order,
and touches no other key. -/
theorem board_spec : ∀ (people : List (Value × Bool)) (s : Record), BucketsWF s →
    ∃ s2, board_starship s people = some s2 ∧ BucketsWF s2 ∧
      bucketList s2 "intruder" =
        bucketList s "intruder" ++ (people.filter (fun q => q.2)).map (fun q => q.1) ∧
      bucketList s2 "passengers" =
        bucketList s "passengers" ++ (people.filter (fun q => !q.2)).map (fun q => q.1) ∧
      (∀ k, k ≠ "passengers" → k ≠ "intruder" → dictGet s2 k = dictGet s k)
  | [], s, hw => ⟨s, rfl, hw, by simp, by simp, fun _ _ _ => rfl⟩
  | p :: t, s, hw => by
      obtain ⟨s1, hs1, hw1, hbi, hbp, hfr⟩ := boardStep_spec s p hw
      obtain ⟨s2, hs2, hw2, hbi2, hbp2, hfr2⟩ := board_spec t s1 hw1
      refine ⟨s2, ?_, hw2, ?_, ?_, ?_⟩
      · rw [board_starship, hs1]
        simpa using hs2
      · rw [hbi2, hbi]
        cases hp : p.2 <;> simp [List.filter, hp]
      · rw [hbp2, hbp]
        cases hp : p.2 <;> simp [List.filter, hp]
      · intro k hk1 hk2
        rw [hfr2 k hk1 hk2, hfr k hk1 hk2]

/-- Any successful boarding, well-formed or not, leaves every key other
than the two bucket keys unchanged. -/
theorem board_frame : ∀ (people : List (Value × Bool)) (s s2 : Record) (k : String),
    board_starship s people = some s2 → k ≠ "passengers" → k ≠ "intruder" →
    dictGet s2 k = dictGet s k
  | [], s, s2, k, h, _, _ => by cases h; rfl
  | p :: t, s, s2, k, h, hk1, hk2 => by
      have h2 : (boardStep s p).bind (fun s1 => board_starship s1 t) = some s2 := h
      rcases hs1 : boardStep s p with _ | s1
      · rw [hs1] at h2; cases h2
      rw [hs1] at h2
      simp only [Option.some_bind] at h2
      have hstep : dictGet s1 k = dictGet s k := by
        unfold boardStep at hs1
        cases hp : p.2
        · rw [hp] at hs1
          simp only [Bool.false_eq_true, if_false] at hs1
          obtain ⟨w, rfl⟩ := bucketInsert_shape s "passengers" p.1 s1 hs1
          exact dictGet_setKey_ne s "passengers" k w hk1
        · rw [hp] at hs1
          simp only [if_true] at hs1
          obtain ⟨w, rfl⟩ := bucketInsert_shape s "intruder" p.1 s1 hs1
          exact dictGet_setKey_ne s "intruder" k w hk2
      rw [board_frame t s1 s2 k h2 hk1 hk2, hstep]

/-- The two flag-filters of a list cover it exactly. -/
theorem filterFlagLength : ∀ l : List (Value × Bool),
    (l.filter (fun q => q.2)).length + (l.filter (fun q => !q.2)).length = l.length
  | [] => rfl
  | p :: t => by
      have ih := filterFlagLength t
      cases hp : p.2 <;> simp [List.filter, hp] <;> omega

/-- C6: board_starship partitions the people list completely on a
bucket-well-formed starship: the flagged people are appended (in order)
to the intruder bucket, the others to the passengers bucket, and the two
buckets together grow by exactly the input length. -/
theorem C6_board_partition (s : Record) (people : List (Value × Bool)) (s2 : Record)
    (hw : BucketsWF s) (h : board_starship s people = some s2) :
    bucketList s2 "intruder" =
      bucketList s "intruder" ++ (people.filter (fun q => q.2)).map (fun q => q.1) ∧
    bucketList s2 "passengers" =
      bucketList s "passengers" ++ (people.filter (fun q => !q.2)).map (fun q => q.1) ∧
    (bucketList s2 "intruder").length + (bucketList s2 "passengers").length =
      (bucketList s "intruder").length + (bucketList s "passengers").length +
        people.length := by
  obtain ⟨s3, hs3, _, hbi, hbp, _⟩ := board_spec people s hw
  obtain rfl : s3 = s2 := Option.some.inj (hs3.symm.trans h)
  refine ⟨hbi, hbp, ?_⟩
  rw [hbi, hbp]
  have hf := filterFlagLength people
  simp only [List.length_append, List.length_map]
  omega

/-- The boarding list of the C6 witness. -/
def c6people : List (Value × Bool) :=
  [(Value.str "vader", true), (Value.str "leia", false)]

/-- The boarded starship of the C6 witness. -/
def c6out : Record :=
  [("intruder", Value.arr [Value.str "vader"]),
   ("passengers", Value.arr [Value.str "leia"])]

theorem C6_board_partition_witness :
    bucketList c6out "intruder" =
      bucketList [] "intruder" ++ (c6people.filter (fun q => q.2)).map (fun q => q.1) ∧
    bucketList c6out "passengers" =
      bucketList [] "passengers" ++ (c6people.filter (fun q => !q.2)).map (fun q => q.1) ∧
    (bucketList c6out "intruder").length + (bucketList c6out "passengers").length =
      (bucketList [] "intruder").length + (bucketList [] "passengers").length +
        c6people.length :=
  C6_board_partition [] c6people c6out
    ⟨fun v hv => by simp [dictGet] at hv, fun v hv => by simp [dictGet] at hv⟩
    (by decide)

/-- C7: boarding [(p1, false), (p2, true)] onto the empty starship record
yields exactly the passengers and intruder buckets in that order, and any
boarding leaves every key other than the two bucket keys unchanged. -/
theorem C7_board_scenario (p1 p2 : Value) (s s2 : Record) (people : List (Value × Bool))
    (k : String) (h : board_starship s people = some s2)
    (hk1 : k ≠ "passengers") (hk2 : k ≠ "intruder") :
    board_starship [] [(p1, false), (p2, true)] =
      some [("passengers", Value.arr [p1]), ("intruder", Value.arr [p2])] ∧
    dictGet s2 k = dictGet s k :=
  ⟨rfl, board_frame people s s2 k h hk1 hk2⟩

theorem C7_board_scenario_witness :
    board_starship [] [(Value.str "r2d2", false), (Value.str "vader", true)] =
      some [("passengers", Value.arr [Value.str "r2d2"]),
            ("intruder", Value.arr [Value.str "vader"])] ∧
    dictGet [("name", Value.str "CR90"), ("passengers", Value.arr [Value.str "leia"])]
      "name" = dictGet [("name", Value.str "CR90")] "name" :=
  C7_board_scenario (Value.str "r2d2") (Value.str "vader")
    [("name", Value.str "CR90")]
    [("name", Value.str "CR90"), ("passengers", Value.arr [Value.str "leia"])]
    [(Value.str "leia", false)] "name" (by decide) (by decide) (by decide)

/-- An organizations keyword entry carrying the given value. -/
def orgKw (v : Value) : Value :=
  Value.obj [("name", Value.str "organizations"), ("value", v)]

/-- An article whose organization extraction yields exactly the given
values, in order. -/
def orgArticle (vs : List Value) : Record :=
  [("keywords", Value.arr (vs.map orgKw))]

/-- Each synthetic organizations keyword passes the comprehension filter
and contributes its value. -/
theorem optMap_orgKw : ∀ vs : List Value,
    optMap orgKeywordStep (vs.map orgKw) = some (vs.map some)
  | [] => rfl
  | v :: t => by
      have ih := optMap_orgKw t
      rw [List.map_cons, optMap,
        show orgKeywordStep (orgKw v) = some (some v) from rfl, ih]
      rfl

/-- get_organization_names on the synthetic article returns exactly the
planted values. -/
theorem orgNames_orgArticle (vs : List Value) :
    get_organization_names (orgArticle vs) = some vs := by
  show (keywordsOf (orgArticle vs)).bind _ = some vs
  rw [show keywordsOf (orgArticle vs) = some (vs.map orgKw) from rfl]
  simp [optMap_orgKw vs, List.filterMap_map, List.filterMap_some]

/-- The membership-guarded append of the organizations loop preserves
freedom from duplicates. -/
theorem foldOrg_nodup : ∀ (names acc : List Value), acc.Nodup →
    (names.foldl (fun acc name => if name ∉ acc then acc ++ [name] else acc) acc).Nodup
  | [], acc, h => h
  | n :: t, acc, h => by
      rw [List.foldl_cons]
      by_cases hn : n ∈ acc
      · simp only [hn, not_true_eq_false, if_false]
        exact foldOrg_nodup t acc h
      · simp only [hn, not_false_eq_true, if_true]
        refine foldOrg_nodup t (acc ++ [n]) ?_
        rw [← List.concat_eq_append]
        exact List.Nodup.concat hn h

/-- The authors-loop append preserves freedom from duplicates and from
None. -/
theorem foldAuth_spec : ∀ (names acc : List Value), acc.Nodup → Value.null ∉ acc →
    (names.foldl
      (fun acc a => if a ≠ Value.null ∧ a ∉ acc then acc ++ [a] else acc) acc).Nodup ∧
    Value.null ∉ (names.foldl
      (fun acc a => if a ≠ Value.null ∧ a ∉ acc then acc ++ [a] else acc) acc)
  | [], acc, h, h0 => ⟨h, h0⟩
  | n :: t, acc, h, h0 => by
      rw [List.foldl_cons]
      by_cases hc : n ≠ Value.null ∧ n ∉ acc
      · rw [if_pos hc]
        refine foldAuth_spec t (acc ++ [n]) ?_ ?_
        · rw [← List.concat_eq_append]
          exact List.Nodup.concat hc.2 h
        · simp only [List.mem_append, List.mem_singleton]
          rintro (hx | hx)
          · exact h0 hx
          · exact hc.1 hx.symm
      · rw [if_neg hc]
        exact foldAuth_spec t acc h h0

/-- The organizations loop never accumulates a duplicate. -/
theorem uniqueOrganizationsFrom_nodup : ∀ (data : List Record) (acc out : List Value),
    uniqueOrganizationsFrom data acc = some out → acc.Nodup → out.Nodup
  | [], acc, out, h, ha => by cases h; exact ha
  | a :: t, acc, out, h, ha => by
      have h2 : (get_organization_names a).bind (fun names =>
          uniqueOrganizationsFrom t
            (names.foldl (fun acc name => if name ∉ acc then acc ++ [name] else acc)
              acc)) = some out := h
      rcases hn : get_organization_names a with _ | names
      · rw [hn] at h2; cases h2
      rw [hn] at h2
      simp only [Option.some_bind] at h2
      exact uniqueOrganizationsFrom_nodup t _ out h2 (foldOrg_nodup names acc ha)

/-- The authors loop never accumulates a duplicate or a None. -/
theorem uniqueAuthorsFrom_spec (title : String → String) :
    ∀ (data : List Record) (acc out : List Value),
    uniqueAuthorsFrom title data acc = some out → acc.Nodup → Value.null ∉ acc →
    out.Nodup ∧ Value.null ∉ out
  | [], acc, out, h, ha, h0 => by cases h; exact ⟨ha, h0⟩
  | a :: t, acc, out, h, ha, h0 => by
      have h2 : (get_author_names title a).bind (fun authors =>
          uniqueAuthorsFrom title t
            (authors.foldl
              (fun acc a => if a ≠ Value.null ∧ a ∉ acc then acc ++ [a] else acc)
              acc)) = some out := h
      rcases hn : get_author_names title a with _ | authors
      · rw [hn] at h2; cases h2
      rw [hn] at h2
      simp only [Option.some_bind] at h2
      obtain ⟨hnd, hnn⟩ := foldAuth_spec authors acc ha h0
      exact uniqueAuthorsFrom_spec title t _ out h2 hnd hnn

/-- C8 counterexample: the organizations loop accumulates a null extracted
value (once) instead of skipping it, so the output for a single null
organization value is [None], not []. -/
theorem C8_counterexample :
    uniqueOrganizations [orgArticle [Value.null]] = some [Value.null] ∧
    some [Value.null] ≠ some ([] : List Value) := by
  decide

/-- C8 amended: both accumulation loops produce duplicate-free sequences
in first-seen order (extracted values [a, b, a, c] give [a, b, c]); the
authors loop additionally skips None values, but the organizations loop
does not skip nulls. -/
theorem C8_dedupe (title : String → String) (dataO dataA : List Record)
    (orgs authors : List Value) (a b c : Value)
    (h1 : uniqueOrganizations dataO = some orgs)
    (h2 : uniqueAuthors title dataA = some authors)
    (hab : a ≠ b) (hac : a ≠ c) (hbc : b ≠ c) :
    orgs.Nodup ∧ authors.Nodup ∧ Value.null ∉ authors ∧
    uniqueOrganizations [orgArticle [a, b, a, c]] = some [a, b, c] := by
  obtain ⟨hand, hann⟩ := uniqueAuthorsFrom_spec title dataA [] authors h2
    List.nodup_nil (List.not_mem_nil Value.null)
  refine ⟨uniqueOrganizationsFrom_nodup dataO [] orgs h1 List.nodup_nil, hand, hann, ?_⟩
  have hfold : ([a, b, a, c].foldl
      (fun acc name => if name ∉ acc then acc ++ [name] else acc) []) = [a, b, c] := by
    simp [List.foldl_cons, List.foldl_nil, Ne.symm hab, Ne.symm hac, Ne.symm hbc]
  have hstep : uniqueOrganizations [orgArticle [a, b, a, c]] =
      some ([a, b, a, c].foldl
        (fun acc name => if name ∉ acc then acc ++ [name] else acc) []) := by
    simp only [uniqueOrganizations, uniqueOrganizationsFrom,
      orgNames_orgArticle [a, b, a, c], Option.some_bind]
  rw [hstep, hfold]

theorem C8_dedupe_witness :
    ([] : List Value).Nodup ∧ ([] : List Value).Nodup ∧
    Value.null ∉ ([] : List Value) ∧
    uniqueOrganizations
      [orgArticle [Value.num 0, Value.num 1, Value.num 0, Value.num 2]] =
      some [Value.num 0, Value.num 1, Value.num 2] :=
  C8_dedupe (fun s => s) [] [] [] [] (Value.num 0) (Value.num 1) (Value.num 2)
    rfl rfl (by decide) (by decide) (by decide)
